import Mathlib

/-
Verification development for the react-native-var-locker library
(src/secureMap.js): an in-memory key-value store whose values are kept
encrypted by a device-local keypair managed by an external crypto provider.

The JavaScript source is shallowly embedded as explicit state passing:
* `Crypto` models the external provider (RSAKeychain): the set of live
  keypair handles plus behaviour functions for encrypt/decrypt and
  failure injection for generate/delete/getPublicKey.
* `St` is the whole mutable world: provider state plus the module-level
  `_staticTagMap` (an association list mirroring the Immutable.Map of
  tag -> (item-key -> ciphertext)).
* Every operation returns an `Outcome`: its result (`Except` for the
  JS throw / rejected-promise channel), the final state, the ordered
  list of provider calls it made, and the list of states observable at
  suspension points (after each provider call completes, before the
  attached continuation runs).
-/

set_option autoImplicit false

namespace VarLockerModel

/-- Namespace prefix for the device keychain (PFX_TAG in the source). -/
def PFX_TAG : String := "com.github.superguineapig"

/-- `_keyCheck` from the source: a tag/key is valid iff it is a non-empty
string containing no whitespace character. -/
def _keyCheck (id : String) : Bool :=
  (id ≠ "") && id.data.all (fun c => !c.isWhitespace)

/-- `_getInternalId`: the derived provider handle for a tag. -/
def _getInternalId (id : String) : String :=
  PFX_TAG ++ "+" ++ id

/-- Association-list lookup (first matching key), modelling `Map.get`. -/
def alGet {α : Type} : List (String × α) → String → Option α
  | [], _ => none
  | (k, v) :: rest, t => if k = t then some v else alGet rest t

/-- Membership test, modelling `Map.has`. -/
def alHas {α : Type} (m : List (String × α)) (t : String) : Bool :=
  (alGet m t).isSome

/-- Insert-or-replace, modelling `Map.set`. -/
def alSet {α : Type} : List (String × α) → String → α → List (String × α)
  | [], t, v => [(t, v)]
  | (k, w) :: rest, t, v =>
      if k = t then (t, v) :: rest else (k, w) :: alSet rest t v

/-- Key removal, modelling `Map.delete`. -/
def alDelete {α : Type} : List (String × α) → String → List (String × α)
  | [], _ => []
  | (k, v) :: rest, t =>
      if k = t then alDelete rest t else (k, v) :: alDelete rest t

/-- The backing map type of `_staticTagMap`: tag -> (item-key -> ciphertext). -/
abbrev TagMap := List (String × List (String × String))

/-- Nested membership, modelling `Map.hasIn([tag, key])`. -/
def tmHasIn (m : TagMap) (tag key : String) : Bool :=
  match alGet m tag with
  | some mm => alHas mm key
  | none => false

/-- Nested lookup with default, modelling `Map.getIn([tag, key], dflt)`. -/
def tmGetIn (m : TagMap) (tag key dflt : String) : String :=
  match alGet m tag with
  | some mm => (alGet mm key).getD dflt
  | none => dflt

/-- Nested insert, modelling `Map.setIn([tag, key], v)`. -/
def tmSetIn (m : TagMap) (tag key v : String) : TagMap :=
  alSet m tag (alSet ((alGet m tag).getD []) key v)

/-- Nested removal, modelling `Map.deleteIn([tag, key])`. -/
def tmDeleteIn (m : TagMap) (tag key : String) : TagMap :=
  match alGet m tag with
  | some mm => alSet m tag (alDelete mm key)
  | none => m

/-- Model of the external crypto provider (RSAKeychain): the handles that
currently have a live keypair, the encryption/decryption behaviour
(`none` = the provider call rejects), and failure injection for
generate / delete / getPublicKey calls. -/
structure Crypto where
  keys : List String
  encFn : String → String → Option String
  decFn : String → String → Option String
  genOk : String → Bool
  delOk : String → Bool
  pubOk : String → Bool

/-- The whole mutable world: provider state plus `_staticTagMap`. -/
structure St where
  crypto : Crypto
  tagMap : TagMap

/-- A provider call, for fail-fast accounting. -/
inductive PCall where
  | getPub : String → PCall
  | gen : String → PCall
  | enc : String → String → PCall
  | dec : String → String → PCall
  | del : String → PCall
  deriving DecidableEq

/-- The error conditions raised by the source (thrown `Error`s /
rejected promises), by kind. -/
inductive SMError where
  | invalidKey : SMError
  | invalidId : SMError
  | alreadyDisposed : String → SMError
  | disposed : String → SMError
  | keyNotFound : String → SMError
  | keyExists : String → SMError
  | provider : SMError
  deriving DecidableEq

/-- Result of running one operation: its `Except` result, the final
state, the ordered provider-call log, and the states observable at each
suspension point (after a provider call completes, before the attached
`.then` continuation runs). -/
structure Outcome (α : Type) where
  res : Except SMError α
  st : St
  calls : List PCall
  mids : List St

/-- `RSAKeychain.getPublicKey` folded through `pub != null`: reports
whether a keypair exists for the handle; `none` = the call rejects. -/
def getPublicKeyCheck (st : St) (h : String) : Option Bool :=
  if st.crypto.pubOk h then some (st.crypto.keys.contains h) else none

/-- `RSAKeychain.generate`: adds a keypair for the handle; `none` = the
call rejects and the provider state is unchanged. -/
def generateKeys (st : St) (h : String) : Option St :=
  if st.crypto.genOk h then
    some { st with crypto :=
      { st.crypto with keys :=
          if st.crypto.keys.contains h then st.crypto.keys
          else h :: st.crypto.keys } }
  else none

/-- `RSAKeychain.deletePrivateKey`: removes the keypair for the handle;
`none` = the call rejects and the provider state is unchanged. -/
def deletePrivateKey (st : St) (h : String) : Option St :=
  if st.crypto.delOk h then
    some { st with crypto :=
      { st.crypto with keys := st.crypto.keys.filter (fun k => k != h) } }
  else none

/-- `_isIdInDeviceKeychain` from the source: existence check for the
tag's derived handle. -/
def _isIdInDeviceKeychain (st : St) (id : String) : Option Bool :=
  getPublicKeyCheck st (_getInternalId id)

/-- `_disposeKeysForId` from the source: validate the id, check the
keypair exists (else "keys already disposed"), delete the keypair at
the provider, and only then drop the tag's entry collection from
`_staticTagMap`. -/
def _disposeKeysForId (id : String) (st : St) : Outcome Unit :=
  if !(_keyCheck id) then
    ⟨Except.error SMError.invalidKey, st, [], []⟩
  else
    match _isIdInDeviceKeychain st id with
    | none =>
        ⟨Except.error SMError.provider, st, [PCall.getPub (_getInternalId id)], [st]⟩
    | some ex =>
        if !ex then
          ⟨Except.error (SMError.alreadyDisposed id), st,
            [PCall.getPub (_getInternalId id)], [st]⟩
        else
          match deletePrivateKey st (_getInternalId id) with
          | none =>
              ⟨Except.error SMError.provider, st,
                [PCall.getPub (_getInternalId id), PCall.del (_getInternalId id)],
                [st, st]⟩
          | some st1 =>
              ⟨Except.ok (),
                (if alHas st1.tagMap id then
                  { st1 with tagMap := alDelete st1.tagMap id }
                else st1),
                [PCall.getPub (_getInternalId id), PCall.del (_getInternalId id)],
                [st, st1]⟩

/-- The `_SecureMap` instance data: the friendly tag and the derived
handle cached by the constructor. -/
structure _SecureMap where
  tag : String
  fullTag : String
  deriving DecidableEq

/-- `_getMapForId` from the source: validate the id, ensure a keypair
exists for the derived handle (generating one when absent), ensure an
entry collection exists in `_staticTagMap`, return a `_SecureMap`. -/
def _getMapForId (id : String) (st : St) : Outcome _SecureMap :=
  if !(_keyCheck id) then
    ⟨Except.error SMError.invalidId, st, [], []⟩
  else
    match _isIdInDeviceKeychain st id with
    | none =>
        ⟨Except.error SMError.provider, st, [PCall.getPub (_getInternalId id)], [st]⟩
    | some hasKeys =>
        if hasKeys then
          ⟨Except.ok ⟨id, _getInternalId id⟩,
            (if alHas st.tagMap id then st
             else { st with tagMap := alSet st.tagMap id [] }),
            [PCall.getPub (_getInternalId id)], [st]⟩
        else
          match generateKeys st (_getInternalId id) with
          | none =>
              ⟨Except.error SMError.provider, st,
                [PCall.getPub (_getInternalId id), PCall.gen (_getInternalId id)],
                [st, st]⟩
          | some st1 =>
              ⟨Except.ok ⟨id, _getInternalId id⟩,
                (if alHas st1.tagMap id then st1
                 else { st1 with tagMap := alSet st1.tagMap id [] }),
                [PCall.getPub (_getInternalId id), PCall.gen (_getInternalId id)],
                [st, st1]⟩

/-- `_SecureMap.empty`: clear the tag's entry collection (fails with
the disposed error if the backing map is gone); synchronous. -/
def _SecureMap.empty (m : _SecureMap) (st : St) : Outcome _SecureMap :=
  match alGet st.tagMap m.tag with
  | none => ⟨Except.error (SMError.disposed m.tag), st, [], []⟩
  | some _ =>
      ⟨Except.ok m, { st with tagMap := alSet st.tagMap m.tag [] }, [], []⟩

/-- `_SecureMap.hasItem`: membership test; synchronous. -/
def _SecureMap.hasItem (m : _SecureMap) (key : String) (st : St) : Outcome Bool :=
  if !(alHas st.tagMap m.tag) then
    ⟨Except.error (SMError.disposed m.tag), st, [], []⟩
  else
    ⟨Except.ok (tmHasIn st.tagMap m.tag key), st, [], []⟩

/-- `_SecureMap.storeItem`: validate the key, require the backing map
live and the key absent, encrypt at the provider, then record the
ciphertext at (tag, key). -/
def _SecureMap.storeItem (m : _SecureMap) (key value : String) (st : St) :
    Outcome _SecureMap :=
  if !(_keyCheck key) then
    ⟨Except.error SMError.invalidKey, st, [], []⟩
  else if !(alHas st.tagMap m.tag) then
    ⟨Except.error (SMError.disposed m.tag), st, [], []⟩
  else if tmHasIn st.tagMap m.tag key then
    ⟨Except.error (SMError.keyExists key), st, [], []⟩
  else
    match st.crypto.encFn m.fullTag value with
    | none =>
        ⟨Except.error SMError.provider, st, [PCall.enc m.fullTag value], [st]⟩
    | some encVal =>
        ⟨Except.ok m, { st with tagMap := tmSetIn st.tagMap m.tag key encVal },
          [PCall.enc m.fullTag value], [st]⟩

/-- `_SecureMap.retrieveItem`: validate the key, require the backing map
live and the key present, decrypt the stored ciphertext at the provider,
then (only after a successful decrypt) remove the entry when `remove`. -/
def _SecureMap.retrieveItem (m : _SecureMap) (key : String) (remove : Bool)
    (st : St) : Outcome String :=
  if !(_keyCheck key) then
    ⟨Except.error SMError.invalidKey, st, [], []⟩
  else if !(alHas st.tagMap m.tag) then
    ⟨Except.error (SMError.disposed m.tag), st, [], []⟩
  else if !(tmHasIn st.tagMap m.tag key) then
    ⟨Except.error (SMError.keyNotFound key), st, [], []⟩
  else
    match st.crypto.decFn m.fullTag (tmGetIn st.tagMap m.tag key "") with
    | none =>
        ⟨Except.error SMError.provider, st,
          [PCall.dec m.fullTag (tmGetIn st.tagMap m.tag key "")], [st]⟩
    | some decVal =>
        ⟨Except.ok decVal,
          (if remove then { st with tagMap := tmDeleteIn st.tagMap m.tag key }
           else st),
          [PCall.dec m.fullTag (tmGetIn st.tagMap m.tag key "")], [st]⟩

/-- The `VarLocker` instance data: the local `#evicted` flag and the
bound `_SecureMap`. -/
structure VarLocker where
  evicted : Bool
  store : _SecureMap
  deriving DecidableEq

/-- `VarLocker#id`: the friendly tag of the bound store. -/
def VarLocker.id (l : VarLocker) : String := l.store.tag

/-- `VarLocker.isEvicted`: resolves true immediately when the local flag
is set; otherwise checks keypair existence at the provider, treating
absence and a failing check alike as eviction (setting the flag), and a
present keypair as not evicted (flag left unset). -/
def VarLocker.isEvicted (l : VarLocker) (st : St) : Outcome (Bool × VarLocker) :=
  if l.evicted then
    ⟨Except.ok (true, l), st, [], []⟩
  else
    match _isIdInDeviceKeychain st l.id with
    | none =>
        ⟨Except.ok (true, { l with evicted := true }), st,
          [PCall.getPub (_getInternalId l.id)], [st]⟩
    | some b =>
        if !b then
          ⟨Except.ok (true, { l with evicted := true }), st,
            [PCall.getPub (_getInternalId l.id)], [st]⟩
        else
          ⟨Except.ok (false, l), st,
            [PCall.getPub (_getInternalId l.id)], [st]⟩

/-- `VarLocker.evict`: dispose the bound store's keys; on success set
the local flag and resolve with the locker. -/
def VarLocker.evict (l : VarLocker) (st : St) : Outcome VarLocker :=
  match _disposeKeysForId l.id st with
  | ⟨Except.ok _, st1, calls, mids⟩ =>
      ⟨Except.ok { l with evicted := true }, st1, calls, mids⟩
  | ⟨Except.error e, st1, calls, mids⟩ =>
      ⟨Except.error e, st1, calls, mids⟩

/-! ### Basic lemmas about the association-list model of Immutable.Map -/

theorem contains_iff_mem (l : List String) (a : String) :
    l.contains a = true ↔ a ∈ l :=
  List.elem_iff

theorem alGet_alSet_self {α : Type} (m : List (String × α)) (k : String) (v : α) :
    alGet (alSet m k v) k = some v := by
  induction m with
  | nil => simp [alSet, alGet]
  | cons p rest ih =>
      obtain ⟨q, w⟩ := p
      by_cases h : q = k
      · simp [alSet, h, alGet]
      · simp [alSet, h, alGet, ih]

theorem alGet_alSet_ne {α : Type} (m : List (String × α)) (k t : String) (v : α)
    (h : t ≠ k) : alGet (alSet m k v) t = alGet m t := by
  induction m with
  | nil => simp [alSet, alGet, Ne.symm h]
  | cons p rest ih =>
      obtain ⟨q, w⟩ := p
      by_cases hq : q = k
      · subst hq
        simp [alSet, alGet, Ne.symm h]
      · simp [alSet, hq, alGet, ih]

theorem alHas_alSet_iff {α : Type} (m : List (String × α)) (k t : String) (v : α) :
    alHas (alSet m k v) t = true ↔ (t = k ∨ alHas m t = true) := by
  by_cases h : t = k
  · subst h
    simp [alHas, alGet_alSet_self]
  · simp [alHas, alGet_alSet_ne m k t v h, h]

theorem alGet_alDelete_ne {α : Type} (m : List (String × α)) (k t : String)
    (h : t ≠ k) : alGet (alDelete m k) t = alGet m t := by
  induction m with
  | nil => rfl
  | cons p rest ih =>
      obtain ⟨q, w⟩ := p
      by_cases hq : q = k
      · subst hq
        simp [alDelete, alGet, ih, Ne.symm h]
      · simp [alDelete, hq, alGet, ih]

theorem alHas_alDelete_self {α : Type} (m : List (String × α)) (k : String) :
    alHas (alDelete m k) k = false := by
  induction m with
  | nil => rfl
  | cons p rest ih =>
      obtain ⟨q, w⟩ := p
      by_cases hq : q = k
      · simpa [alDelete, hq] using ih
      · simpa [alDelete, hq, alHas, alGet] using ih

theorem alHas_alDelete_imp {α : Type} (m : List (String × α)) (k t : String)
    (h : alHas (alDelete m k) t = true) : alHas m t = true ∧ t ≠ k := by
  by_cases ht : t = k
  · subst ht
    simp [alHas_alDelete_self] at h
  · constructor
    · simpa [alHas, alGet_alDelete_ne m k t ht] using h
    · exact ht

theorem tmGetIn_tmSetIn_self (m : TagMap) (tag key v d : String) :
    tmGetIn (tmSetIn m tag key v) tag key d = v := by
  unfold tmGetIn tmSetIn
  rw [alGet_alSet_self]
  simp [alGet_alSet_self]

theorem tmHasIn_tmSetIn_self (m : TagMap) (tag key v : String) :
    tmHasIn (tmSetIn m tag key v) tag key = true := by
  unfold tmHasIn tmSetIn
  rw [alGet_alSet_self]
  simp [alHas, alGet_alSet_self]

theorem strAppend_left_cancel {s a b : String} (h : s ++ a = s ++ b) : a = b := by
  cases a with
  | mk da =>
  cases b with
  | mk db =>
  cases s with
  | mk ds =>
  simp [String.ext_iff, String.data_append] at h
  simpa [String.ext_iff] using h

theorem _getInternalId_inj {a b : String} (h : _getInternalId a = _getInternalId b) :
    a = b := by
  unfold _getInternalId at h
  exact strAppend_left_cancel h

/-! ### The entries / keypair invariant and its preservation -/

/-- Every tag present in the registry's entries has a live keypair in
the provider under its derived handle. -/
def entriesKeyInv (st : St) : Prop :=
  ∀ t : String, alHas st.tagMap t = true → _getInternalId t ∈ st.crypto.keys

theorem isIdIn_some {st : St} {id : String} {b : Bool}
    (h : _isIdInDeviceKeychain st id = some b) :
    st.crypto.pubOk (_getInternalId id) = true ∧
      (b = true ↔ _getInternalId id ∈ st.crypto.keys) := by
  unfold _isIdInDeviceKeychain getPublicKeyCheck at h
  by_cases hp : st.crypto.pubOk (_getInternalId id) = true
  · simp [hp] at h
    refine ⟨hp, ?_⟩
    rw [← h]
    simp
  · simp [hp] at h

theorem isIdIn_some_true {st : St} {id : String}
    (h : _isIdInDeviceKeychain st id = some true) :
    _getInternalId id ∈ st.crypto.keys := by
  obtain ⟨-, hb⟩ := isIdIn_some h
  exact hb.mp rfl

theorem generateKeys_some {st st1 : St} {h : String}
    (hg : generateKeys st h = some st1) :
    st1.tagMap = st.tagMap ∧ h ∈ st1.crypto.keys ∧
      (∀ x ∈ st.crypto.keys, x ∈ st1.crypto.keys) ∧
      st1.crypto.pubOk = st.crypto.pubOk := by
  unfold generateKeys at hg
  by_cases hgen : st.crypto.genOk h = true
  · by_cases hc : h ∈ st.crypto.keys
    · simp [hgen, hc] at hg
      refine ⟨by rw [← hg], ?_, ?_, by rw [← hg]⟩
      · rw [← hg]
        exact hc
      · intro x hx
        rw [← hg]
        exact hx
    · simp [hgen, hc] at hg
      refine ⟨by rw [← hg], ?_, ?_, by rw [← hg]⟩
      · rw [← hg]
        exact List.mem_cons_self _ _
      · intro x hx
        rw [← hg]
        exact List.mem_cons_of_mem _ hx
  · simp [hgen] at hg

theorem deletePrivateKey_some {st st1 : St} {h : String}
    (hd : deletePrivateKey st h = some st1) :
    st1.tagMap = st.tagMap ∧
      st1.crypto.keys = st.crypto.keys.filter (fun k => k != h) ∧
      st1.crypto.pubOk = st.crypto.pubOk ∧
      st.crypto.delOk h = true := by
  unfold deletePrivateKey at hd
  by_cases hdel : st.crypto.delOk h = true
  · simp [hdel] at hd
    exact ⟨by rw [← hd], by rw [← hd], by rw [← hd], hdel⟩
  · simp [hdel] at hd

theorem inv_preserved_getMap (id : String) (st : St) (hinv : entriesKeyInv st) :
    entriesKeyInv (_getMapForId id st).st := by
  unfold _getMapForId
  split
  · exact hinv
  · split
    · exact hinv
    · next hasKeys heq =>
        split
        · next hk =>
            have hmem : _getInternalId id ∈ st.crypto.keys := by
              apply isIdIn_some_true
              rw [heq, hk]
            split
            · exact hinv
            · intro t ht
              rcases (alHas_alSet_iff st.tagMap id t []).mp ht with h1 | h1
              · subst h1
                exact hmem
              · exact hinv t h1
        · split
          · exact hinv
          · next st1 hg =>
              obtain ⟨htm, hmem, hsub, -⟩ := generateKeys_some hg
              split
              · intro t ht
                rw [htm] at ht
                exact hsub _ (hinv t ht)
              · intro t ht
                rw [htm] at ht
                rcases (alHas_alSet_iff st.tagMap id t []).mp ht with h1 | h1
                · subst h1
                  exact hmem
                · exact hsub _ (hinv t h1)

theorem inv_preserved_dispose (id : String) (st : St) (hinv : entriesKeyInv st) :
    entriesKeyInv (_disposeKeysForId id st).st := by
  unfold _disposeKeysForId
  split
  · exact hinv
  · split
    · exact hinv
    · split
      · exact hinv
      · split
        · exact hinv
        · next st1 hd =>
            obtain ⟨htm, hkeys, -, -⟩ := deletePrivateKey_some hd
            have step : ∀ t : String, alHas st.tagMap t = true → t ≠ id →
                _getInternalId t ∈ st1.crypto.keys := by
              intro t ht hne
              rw [hkeys]
              refine List.mem_filter.mpr ⟨hinv t ht, ?_⟩
              exact bne_iff_ne.mpr fun e => hne (_getInternalId_inj e)
            split
            · next hhas =>
                intro t ht
                simp only at ht
                rw [htm] at ht
                obtain ⟨ht', hne⟩ := alHas_alDelete_imp st.tagMap id t ht
                exact step t ht' hne
            · next hhas =>
                intro t ht
                rw [htm] at ht
                have hne : t ≠ id := by
                  intro e
                  subst e
                  rw [htm] at hhas
                  exact hhas ht
                exact step t ht hne

theorem inv_preserved_store (m : _SecureMap) (key value : String) (st : St)
    (hinv : entriesKeyInv st) :
    entriesKeyInv (_SecureMap.storeItem m key value st).st := by
  unfold _SecureMap.storeItem
  split
  · exact hinv
  · split
    · exact hinv
    · next hlive =>
        have hlive' : alHas st.tagMap m.tag = true := by
          simpa using hlive
        split
        · exact hinv
        · split
          · exact hinv
          · intro t ht
            unfold tmSetIn at ht
            rcases (alHas_alSet_iff _ _ _ _).mp ht with h1 | h1
            · subst h1
              exact hinv _ hlive'
            · exact hinv t h1

theorem inv_preserved_retrieve (m : _SecureMap) (key : String) (remove : Bool)
    (st : St) (hinv : entriesKeyInv st) :
    entriesKeyInv (_SecureMap.retrieveItem m key remove st).st := by
  unfold _SecureMap.retrieveItem
  split
  · exact hinv
  · split
    · exact hinv
    · next hlive =>
        have hlive' : alHas st.tagMap m.tag = true := by
          simpa using hlive
        split
        · exact hinv
        · split
          · exact hinv
          · split
            · intro t ht
              simp only at ht
              unfold tmDeleteIn at ht
              revert ht
              split
              · intro ht
                rcases (alHas_alSet_iff _ _ _ _).mp ht with h1 | h1
                · subst h1
                  exact hinv _ hlive'
                · exact hinv t h1
              · intro ht
                exact hinv t ht
            · exact hinv

theorem inv_preserved_empty (m : _SecureMap) (st : St) (hinv : entriesKeyInv st) :
    entriesKeyInv (_SecureMap.empty m st).st := by
  unfold _SecureMap.empty
  split
  · exact hinv
  · next mm hget =>
      intro t ht
      rcases (alHas_alSet_iff _ _ _ _).mp ht with h1 | h1
      · subst h1
        apply hinv
        simp [alHas, hget]
      · exact hinv t h1

theorem alHas_alSet_self {α : Type} (m : List (String × α)) (k : String) (v : α) :
    alHas (alSet m k v) k = true := by
  simp [alHas, alGet_alSet_self]

theorem tmHasIn_tmDeleteIn_self (m : TagMap) (tag key : String) :
    tmHasIn (tmDeleteIn m tag key) tag key = false := by
  unfold tmDeleteIn
  cases hget : alGet m tag with
  | none => simp [tmHasIn, hget]
  | some mm => simp [tmHasIn, alGet_alSet_self, alHas_alDelete_self]

theorem contains_filter_bne_self (l : List String) (h : String) :
    (l.filter (fun k => k != h)).contains h = false := by
  have hnot : h ∉ l.filter (fun k => k != h) := by
    intro hmem
    rcases List.mem_filter.mp hmem with ⟨-, hb⟩
    exact (bne_iff_ne.mp hb) rfl
  rw [← Bool.not_eq_true]
  intro hc
  exact hnot ((contains_iff_mem _ _).mp hc)

theorem alHas_tmSetIn_self (m : TagMap) (tag key v : String) :
    alHas (tmSetIn m tag key v) tag = true := by
  unfold tmSetIn
  exact alHas_alSet_self _ _ _

/-- Concrete world used by the witnesses and counterexamples: one live
tag "t" with one stored entry, an identity-encrypting provider, and
every provider call succeeding. -/
def idCrypto : Crypto :=
  { keys := [_getInternalId "t"]
    encFn := fun _ v => some v
    decFn := fun _ c => some c
    genOk := fun _ => true
    delOk := fun _ => true
    pubOk := fun _ => true }

/-- Concrete registry state for witnesses: tag "t" live with one entry. -/
def liveSt : St := { crypto := idCrypto, tagMap := [("t", [("k", "c")])] }

/-! ### Claim theorems -/

/-- C1: for a live store, a well-formed key not already present, and any
value, `storeItem key value` followed by `retrieveItem key (remove :=
false)` resolves with a value equal to `value`, under the hypothesis
that the provider's decrypt inverts its encrypt for the tag's derived
handle. -/
theorem C1_store_retrieve_roundtrip
    (tag key value : String) (st : St)
    (hkey : _keyCheck key = true)
    (hlive : alHas st.tagMap tag = true)
    (habsent : tmHasIn st.tagMap tag key = false)
    (hcrypt : ∀ v, ∃ c, st.crypto.encFn (_getInternalId tag) v = some c ∧
        st.crypto.decFn (_getInternalId tag) c = some v) :
    (_SecureMap.storeItem ⟨tag, _getInternalId tag⟩ key value st).res
        = Except.ok ⟨tag, _getInternalId tag⟩ ∧
    (_SecureMap.retrieveItem ⟨tag, _getInternalId tag⟩ key false
        (_SecureMap.storeItem ⟨tag, _getInternalId tag⟩ key value st).st).res
        = Except.ok value := by
  obtain ⟨c, henc, hdec⟩ := hcrypt value
  have hstore : _SecureMap.storeItem ⟨tag, _getInternalId tag⟩ key value st
      = ⟨Except.ok ⟨tag, _getInternalId tag⟩,
          { st with tagMap := tmSetIn st.tagMap tag key c },
          [PCall.enc (_getInternalId tag) value], [st]⟩ := by
    unfold _SecureMap.storeItem
    simp [hkey, hlive, habsent, henc]
  rw [hstore]
  refine ⟨rfl, ?_⟩
  unfold _SecureMap.retrieveItem
  simp [hkey, alHas_tmSetIn_self, tmHasIn_tmSetIn_self, tmGetIn_tmSetIn_self, hdec]

/-- C1 witness: concrete round trip for tag "t", fresh key "x",
value "v" in the concrete live state. -/
theorem C1_store_retrieve_roundtrip_witness :
    (_SecureMap.storeItem ⟨"t", _getInternalId "t"⟩ "x" "v" liveSt).res
        = Except.ok ⟨"t", _getInternalId "t"⟩ ∧
    (_SecureMap.retrieveItem ⟨"t", _getInternalId "t"⟩ "x" false
        (_SecureMap.storeItem ⟨"t", _getInternalId "t"⟩ "x" "v" liveSt).st).res
        = Except.ok "v" :=
  C1_store_retrieve_roundtrip "t" "x" "v" liveSt (by decide) (by decide)
    (by decide) (fun v => ⟨v, rfl, rfl⟩)

/-- C3: storing to a key already present in a live store is rejected
with the AlreadyExists error, the whole registry state (hence the
previously stored ciphertext) is unchanged, and no provider call is
made. -/
theorem C3_store_existing_rejected
    (key value : String) (m : _SecureMap) (st : St)
    (hkey : _keyCheck key = true)
    (hlive : alHas st.tagMap m.tag = true)
    (hpresent : tmHasIn st.tagMap m.tag key = true) :
    (_SecureMap.storeItem m key value st).res
        = Except.error (SMError.keyExists key) ∧
    (_SecureMap.storeItem m key value st).st = st ∧
    (_SecureMap.storeItem m key value st).calls = [] := by
  unfold _SecureMap.storeItem
  simp [hkey, hlive, hpresent]

/-- C3 witness: storing again to the already-present key "k" of the
concrete live state. -/
theorem C3_store_existing_rejected_witness :
    (_SecureMap.storeItem ⟨"t", _getInternalId "t"⟩ "k" "v2" liveSt).res
        = Except.error (SMError.keyExists "k") ∧
    (_SecureMap.storeItem ⟨"t", _getInternalId "t"⟩ "k" "v2" liveSt).st = liveSt ∧
    (_SecureMap.storeItem ⟨"t", _getInternalId "t"⟩ "k" "v2" liveSt).calls = [] :=
  C3_store_existing_rejected "k" "v2" ⟨"t", _getInternalId "t"⟩ liveSt
    (by decide) (by decide) (by decide)

/-- C7: with `remove = true`, the entry is removed only after the
provider's decrypt resolves: a decrypt failure leaves the whole state
unchanged (retry possible), and a decrypt success resolves the
plaintext and removes exactly the (tag, key) entry. -/
theorem C7_remove_only_after_decrypt
    (m : _SecureMap) (key : String) (st : St)
    (hkey : _keyCheck key = true)
    (hlive : alHas st.tagMap m.tag = true)
    (hpresent : tmHasIn st.tagMap m.tag key = true) :
    (st.crypto.decFn m.fullTag (tmGetIn st.tagMap m.tag key "") = none →
        (_SecureMap.retrieveItem m key true st).res = Except.error SMError.provider ∧
        (_SecureMap.retrieveItem m key true st).st = st) ∧
    (∀ v, st.crypto.decFn m.fullTag (tmGetIn st.tagMap m.tag key "") = some v →
        (_SecureMap.retrieveItem m key true st).res = Except.ok v ∧
        (_SecureMap.retrieveItem m key true st).st.tagMap
            = tmDeleteIn st.tagMap m.tag key ∧
        tmHasIn (_SecureMap.retrieveItem m key true st).st.tagMap m.tag key
            = false) := by
  constructor
  · intro hdec
    unfold _SecureMap.retrieveItem
    simp [hkey, hlive, hpresent, hdec]
  · intro v hdec
    unfold _SecureMap.retrieveItem
    simp [hkey, hlive, hpresent, hdec, tmHasIn_tmDeleteIn_self]

/-- C7 witness: decrypting the stored entry "k" of the concrete live
state succeeds (identity provider) and removes it. -/
theorem C7_remove_only_after_decrypt_witness :
    (_SecureMap.retrieveItem ⟨"t", _getInternalId "t"⟩ "k" true liveSt).res
        = Except.ok "c" ∧
    (_SecureMap.retrieveItem ⟨"t", _getInternalId "t"⟩ "k" true liveSt).st.tagMap
        = tmDeleteIn liveSt.tagMap "t" "k" ∧
    tmHasIn (_SecureMap.retrieveItem ⟨"t", _getInternalId "t"⟩ "k" true liveSt).st.tagMap
        "t" "k" = false :=
  (C7_remove_only_after_decrypt ⟨"t", _getInternalId "t"⟩ "k" liveSt
      (by decide) (by decide) (by decide)).2 "c" rfl

/-- C10: `storeItem`, `retrieveItem` and `empty` on a handle bound to one
tag never change the entry collection (or the presence) of any other
tag in the registry. -/
theorem C10_frame_other_tags
    (m : _SecureMap) (key value t : String) (r : Bool) (st : St)
    (hne : t ≠ m.tag) :
    alGet (_SecureMap.storeItem m key value st).st.tagMap t = alGet st.tagMap t ∧
    alGet (_SecureMap.retrieveItem m key r st).st.tagMap t = alGet st.tagMap t ∧
    alGet (_SecureMap.empty m st).st.tagMap t = alGet st.tagMap t := by
  refine ⟨?_, ?_, ?_⟩
  · unfold _SecureMap.storeItem
    split
    · rfl
    · split
      · rfl
      · split
        · rfl
        · split
          · rfl
          · show alGet (tmSetIn st.tagMap m.tag key _) t = alGet st.tagMap t
            unfold tmSetIn
            exact alGet_alSet_ne _ _ _ _ hne
  · unfold _SecureMap.retrieveItem
    split
    · rfl
    · split
      · rfl
      · split
        · rfl
        · split
          · rfl
          · cases r with
            | false => rfl
            | true =>
                show alGet (tmDeleteIn st.tagMap m.tag key) t = alGet st.tagMap t
                unfold tmDeleteIn
                split
                · exact alGet_alSet_ne _ _ _ _ hne
                · rfl
  · unfold _SecureMap.empty
    split
    · rfl
    · exact alGet_alSet_ne _ _ _ _ hne

/-- C10 witness: operations on the handle for tag "t" leave the entry
collection of tag "u" untouched. -/
theorem C10_frame_other_tags_witness :
    alGet (_SecureMap.storeItem ⟨"t", _getInternalId "t"⟩ "x" "v" liveSt).st.tagMap "u"
        = alGet liveSt.tagMap "u" ∧
    alGet (_SecureMap.retrieveItem ⟨"t", _getInternalId "t"⟩ "k" true liveSt).st.tagMap "u"
        = alGet liveSt.tagMap "u" ∧
    alGet (_SecureMap.empty ⟨"t", _getInternalId "t"⟩ liveSt).st.tagMap "u"
        = alGet liveSt.tagMap "u" :=
  C10_frame_other_tags ⟨"t", _getInternalId "t"⟩ "x" "v" "u" true liveSt (by decide)

/-- C6: malformed arguments (and, for retrieveItem, a disposed store or
an absent key) are rejected with the corresponding validation error
before any provider call is made: the call log of the failing operation
is empty. -/
theorem C6_validation_before_provider
    (tag key value : String) (r : Bool) (m : _SecureMap) (st : St) :
    (_keyCheck tag = false →
        (_getMapForId tag st).res = Except.error SMError.invalidId ∧
        (_getMapForId tag st).calls = [] ∧
        (_disposeKeysForId tag st).res = Except.error SMError.invalidKey ∧
        (_disposeKeysForId tag st).calls = []) ∧
    (_keyCheck key = false →
        (_SecureMap.storeItem m key value st).res = Except.error SMError.invalidKey ∧
        (_SecureMap.storeItem m key value st).calls = [] ∧
        (_SecureMap.retrieveItem m key r st).res = Except.error SMError.invalidKey ∧
        (_SecureMap.retrieveItem m key r st).calls = []) ∧
    (_keyCheck key = true → alHas st.tagMap m.tag = false →
        (_SecureMap.storeItem m key value st).res
            = Except.error (SMError.disposed m.tag) ∧
        (_SecureMap.storeItem m key value st).calls = [] ∧
        (_SecureMap.retrieveItem m key r st).res
            = Except.error (SMError.disposed m.tag) ∧
        (_SecureMap.retrieveItem m key r st).calls = []) ∧
    (_keyCheck key = true → alHas st.tagMap m.tag = true →
        tmHasIn st.tagMap m.tag key = false →
        (_SecureMap.retrieveItem m key r st).res
            = Except.error (SMError.keyNotFound key) ∧
        (_SecureMap.retrieveItem m key r st).calls = []) := by
  refine ⟨?_, ?_, ?_, ?_⟩
  · intro hbad
    unfold _getMapForId _disposeKeysForId
    simp [hbad]
  · intro hbad
    unfold _SecureMap.storeItem _SecureMap.retrieveItem
    simp [hbad]
  · intro hkey hgone
    unfold _SecureMap.storeItem _SecureMap.retrieveItem
    simp [hkey, hgone]
  · intro hkey hlive habsent
    unfold _SecureMap.retrieveItem
    simp [hkey, hlive, habsent]

/-- C6 witness: the whitespace key "a b" (and absent key "x") on the
concrete live state are rejected with empty call logs. -/
theorem C6_validation_before_provider_witness :
    ((_getMapForId "a b" liveSt).res = Except.error SMError.invalidId ∧
     (_getMapForId "a b" liveSt).calls = [] ∧
     (_disposeKeysForId "a b" liveSt).res = Except.error SMError.invalidKey ∧
     (_disposeKeysForId "a b" liveSt).calls = []) ∧
    ((_SecureMap.retrieveItem ⟨"t", _getInternalId "t"⟩ "x" true liveSt).res
        = Except.error (SMError.keyNotFound "x") ∧
     (_SecureMap.retrieveItem ⟨"t", _getInternalId "t"⟩ "x" true liveSt).calls = []) :=
  ⟨(C6_validation_before_provider "a b" "k" "v" true ⟨"t", _getInternalId "t"⟩
      liveSt).1 (by decide),
   (C6_validation_before_provider "t" "x" "v" true ⟨"t", _getInternalId "t"⟩
      liveSt).2.2.2 (by decide) (by decide) (by decide)⟩

/-- C5: `getMapForId` (ensureStore) with working provider calls: on a
fresh tag it creates the keypair and an empty entry collection and the
store then exists; on an already-initialized tag it changes nothing at
all (no new keypair, entries untouched) and the store exists. -/
theorem C5_getMapForId_idempotent
    (tag : String) (st : St)
    (hkey : _keyCheck tag = true)
    (hpub : st.crypto.pubOk (_getInternalId tag) = true) :
    (_getInternalId tag ∉ st.crypto.keys → alHas st.tagMap tag = false →
        st.crypto.genOk (_getInternalId tag) = true →
        (_getMapForId tag st).res = Except.ok ⟨tag, _getInternalId tag⟩ ∧
        alGet (_getMapForId tag st).st.tagMap tag = some [] ∧
        _isIdInDeviceKeychain (_getMapForId tag st).st tag = some true) ∧
    (_getInternalId tag ∈ st.crypto.keys → alHas st.tagMap tag = true →
        (_getMapForId tag st).res = Except.ok ⟨tag, _getInternalId tag⟩ ∧
        (_getMapForId tag st).st = st ∧
        _isIdInDeviceKeychain (_getMapForId tag st).st tag = some true) := by
  constructor
  · intro hfresh hnomap hgen
    have hnomap' : (alGet st.tagMap tag).isSome = false := hnomap
    unfold _getMapForId _isIdInDeviceKeychain getPublicKeyCheck generateKeys
    simp [hkey, hpub, hfresh, hnomap, hnomap', hgen, alGet_alSet_self]
  · intro hmem hmap
    have hrun : (_getMapForId tag st).res = Except.ok ⟨tag, _getInternalId tag⟩ ∧
        (_getMapForId tag st).st = st := by
      unfold _getMapForId _isIdInDeviceKeychain getPublicKeyCheck
      simp [hkey, hpub, hmem, hmap]
    refine ⟨hrun.1, hrun.2, ?_⟩
    rw [hrun.2]
    unfold _isIdInDeviceKeychain getPublicKeyCheck
    simp [hpub, hmem]

/-- C5 witness: creating the fresh tag "u" and re-ensuring the already
live tag "t" in the concrete live state. -/
theorem C5_getMapForId_idempotent_witness :
    ((_getMapForId "u" liveSt).res = Except.ok ⟨"u", _getInternalId "u"⟩ ∧
     alGet (_getMapForId "u" liveSt).st.tagMap "u" = some [] ∧
     _isIdInDeviceKeychain (_getMapForId "u" liveSt).st "u" = some true) ∧
    ((_getMapForId "t" liveSt).res = Except.ok ⟨"t", _getInternalId "t"⟩ ∧
     (_getMapForId "t" liveSt).st = liveSt ∧
     _isIdInDeviceKeychain (_getMapForId "t" liveSt).st "t" = some true) :=
  ⟨(C5_getMapForId_idempotent "u" liveSt (by decide) rfl).1 (by decide) (by decide) rfl,
   (C5_getMapForId_idempotent "t" liveSt (by decide) rfl).2 (by decide) (by decide)⟩

/-- C9: when the local flag is unset, `isEvicted` asks the provider: a
failing existence check or an absent keypair resolves true and sets the
flag (the provider error is swallowed); a present keypair resolves
false with the locker unchanged (flag still unset). -/
theorem C9_isEvicted_fails_open (l : VarLocker) (st : St)
    (hflag : l.evicted = false) :
    (st.crypto.pubOk (_getInternalId l.id) = false →
        (l.isEvicted st).res = Except.ok (true, { l with evicted := true }) ∧
        (l.isEvicted st).st = st) ∧
    (st.crypto.pubOk (_getInternalId l.id) = true →
        _getInternalId l.id ∉ st.crypto.keys →
        (l.isEvicted st).res = Except.ok (true, { l with evicted := true })) ∧
    (st.crypto.pubOk (_getInternalId l.id) = true →
        _getInternalId l.id ∈ st.crypto.keys →
        (l.isEvicted st).res = Except.ok (false, l)) := by
  refine ⟨?_, ?_, ?_⟩
  · intro hpub
    unfold VarLocker.isEvicted _isIdInDeviceKeychain getPublicKeyCheck
    simp [hflag, hpub]
  · intro hpub habs
    unfold VarLocker.isEvicted _isIdInDeviceKeychain getPublicKeyCheck
    simp [hflag, hpub, habs]
  · intro hpub hmem
    unfold VarLocker.isEvicted _isIdInDeviceKeychain getPublicKeyCheck
    simp [hflag, hpub, hmem]

/-- C9 witness: a locker for the live tag "t" with flag unset resolves
false, and one for the absent tag "u" resolves true setting the flag. -/
theorem C9_isEvicted_fails_open_witness :
    (VarLocker.isEvicted ⟨false, ⟨"t", _getInternalId "t"⟩⟩ liveSt).res
        = Except.ok (false, ⟨false, ⟨"t", _getInternalId "t"⟩⟩) ∧
    (VarLocker.isEvicted ⟨false, ⟨"u", _getInternalId "u"⟩⟩ liveSt).res
        = Except.ok (true, ⟨true, ⟨"u", _getInternalId "u"⟩⟩) :=
  ⟨(C9_isEvicted_fails_open ⟨false, ⟨"t", _getInternalId "t"⟩⟩ liveSt rfl).2.2
      rfl (by decide),
   (C9_isEvicted_fails_open ⟨false, ⟨"u", _getInternalId "u"⟩⟩ liveSt rfl).2.1
      rfl (by decide)⟩

/-- C4: for a valid tag with a live keypair, a failing provider deletion
leaves the whole registry state exactly as before (retry-safe), and on
the success path the deletion call precedes the drop of the entry
collection: at both suspension points (after the existence check and
after the completed deletion) the entries map is still untouched. -/
theorem C4_dispose_retry_safe (tag : String) (st : St)
    (hkey : _keyCheck tag = true)
    (hpub : st.crypto.pubOk (_getInternalId tag) = true)
    (hlive : _getInternalId tag ∈ st.crypto.keys) :
    (st.crypto.delOk (_getInternalId tag) = false →
        (_disposeKeysForId tag st).res = Except.error SMError.provider ∧
        (_disposeKeysForId tag st).st = st) ∧
    (st.crypto.delOk (_getInternalId tag) = true →
        (_disposeKeysForId tag st).calls
            = [PCall.getPub (_getInternalId tag), PCall.del (_getInternalId tag)] ∧
        (_disposeKeysForId tag st).mids.map St.tagMap = [st.tagMap, st.tagMap]) := by
  constructor
  · intro hdel
    unfold _disposeKeysForId _isIdInDeviceKeychain getPublicKeyCheck deletePrivateKey
    simp [hkey, hpub, hlive, hdel]
  · intro hdel
    unfold _disposeKeysForId _isIdInDeviceKeychain getPublicKeyCheck deletePrivateKey
    simp [hkey, hpub, hlive, hdel]

/-- Concrete state whose provider refuses deletion, for the C4 witness. -/
def delFailSt : St :=
  { crypto := { idCrypto with delOk := fun _ => false }
    tagMap := [("t", [("k", "c")])] }

/-- C4 witness: failed deletion leaves the state untouched; successful
deletion orders the provider calls before the drop. -/
theorem C4_dispose_retry_safe_witness :
    ((_disposeKeysForId "t" delFailSt).res = Except.error SMError.provider ∧
     (_disposeKeysForId "t" delFailSt).st = delFailSt) ∧
    ((_disposeKeysForId "t" liveSt).calls
        = [PCall.getPub (_getInternalId "t"), PCall.del (_getInternalId "t")] ∧
     (_disposeKeysForId "t" liveSt).mids.map St.tagMap
        = [liveSt.tagMap, liveSt.tagMap]) :=
  ⟨(C4_dispose_retry_safe "t" delFailSt (by decide) rfl (by decide)).1 rfl,
   (C4_dispose_retry_safe "t" liveSt (by decide) rfl (by decide)).2 rfl⟩

/-- C2 counterexample: the claim demands that at every observable point
(between completed asynchronous steps) a tag in the entries map has a
live keypair and vice versa. Running `disposeKeysForId "t"` on the
concrete live state, the observable state after the provider deletion
completes (second suspension point) still has "t" in the entries map
while its keypair is already gone, so the claimed atomicity fails. -/
theorem C2_counterexample :
    (_disposeKeysForId "t" liveSt).res = Except.ok () ∧
    ((_disposeKeysForId "t" liveSt).mids.map
        (fun s => (alHas s.tagMap "t", s.crypto.keys.contains (_getInternalId "t"))))
      = [(true, true), (true, false)] := by
  exact ⟨rfl, rfl⟩

/-- C2 amended: the direction "a tag present in entries has a live
keypair" does hold in every quiescent state, i.e. it is preserved by
every complete documented operation (ensure/dispose/store/retrieve/
clear), whatever their arguments and outcome; only the intermediate
suspension states during ensure and dispose can violate the claimed
atomic coupling. -/
theorem C2_invariant_at_operation_boundaries (st : St) (hinv : entriesKeyInv st) :
    (∀ id, entriesKeyInv (_getMapForId id st).st) ∧
    (∀ id, entriesKeyInv (_disposeKeysForId id st).st) ∧
    (∀ m key value, entriesKeyInv (_SecureMap.storeItem m key value st).st) ∧
    (∀ m key r, entriesKeyInv (_SecureMap.retrieveItem m key r st).st) ∧
    (∀ m, entriesKeyInv (_SecureMap.empty m st).st) :=
  ⟨fun id => inv_preserved_getMap id st hinv,
   fun id => inv_preserved_dispose id st hinv,
   fun m key value => inv_preserved_store m key value st hinv,
   fun m key r => inv_preserved_retrieve m key r st hinv,
   fun m => inv_preserved_empty m st hinv⟩

/-- C2 amended witness: the concrete live state satisfies the invariant
and keeps satisfying it across every operation. -/
theorem C2_invariant_at_operation_boundaries_witness :
    (∀ id, entriesKeyInv (_getMapForId id liveSt).st) ∧
    (∀ id, entriesKeyInv (_disposeKeysForId id liveSt).st) ∧
    (∀ m key value, entriesKeyInv (_SecureMap.storeItem m key value liveSt).st) ∧
    (∀ m key r, entriesKeyInv (_SecureMap.retrieveItem m key r liveSt).st) ∧
    (∀ m, entriesKeyInv (_SecureMap.empty m liveSt).st) :=
  C2_invariant_at_operation_boundaries liveSt (by
    intro t ht
    have : "t" = t := by
      by_contra hne
      simp [liveSt, alHas, alGet, hne] at ht
    subst this
    decide)

/-- C8: after a successful `evict`, `isEvicted` resolves true with no
provider call at all, and a second `evict` fails with the
"keys already disposed" (NotFound) error. -/
theorem C8_evict_idempotent (l l2 : VarLocker) (st : St)
    (hsucc : (l.evict st).res = Except.ok l2) :
    (l2.isEvicted (l.evict st).st).res = Except.ok (true, l2) ∧
    (l2.isEvicted (l.evict st).st).calls = [] ∧
    (l2.evict (l.evict st).st).res = Except.error (SMError.alreadyDisposed l.id) := by
  unfold VarLocker.evict at hsucc ⊢
  split at hsucc
  case h_2 => simp at hsucc
  case h_1 u st1 calls mids heq =>
    simp only [Except.ok.injEq] at hsucc
    subst hsucc
    unfold _disposeKeysForId at heq
    split at heq
    · simp at heq
    · split at heq
      · simp at heq
      · split at heq
        · simp at heq
        · split at heq
          · simp at heq
          · simp only [Outcome.mk.injEq] at heq
            obtain ⟨-, hst1, -, -⟩ := heq
            rename_i hkcCond hx1 ex heqPub hexCond hx2 stD heqDel
            have hkc' : _keyCheck l.store.tag = true := by
              simpa [VarLocker.id] using hkcCond
            have hexT : ex = true := by
              simpa using hexCond
            subst hexT
            obtain ⟨hpub, -⟩ := isIdIn_some heqPub
            obtain ⟨-, hkeysD, hpubD, -⟩ := deletePrivateKey_some heqDel
            have hcrypto1 : st1.crypto = stD.crypto := by
              rw [← hst1]
              split <;> rfl
            have hpub1 : st1.crypto.pubOk (_getInternalId l.store.tag) = true := by
              rw [hcrypto1, hpubD]
              exact hpub
            have hcont1 : st1.crypto.keys.contains (_getInternalId l.store.tag)
                = false := by
              rw [hcrypto1, hkeysD]
              exact contains_filter_bne_self _ _
            have hmem1 : _getInternalId l.store.tag ∉ st1.crypto.keys := by
              intro hm
              rw [(contains_iff_mem _ _).mpr hm] at hcont1
              cases hcont1
            refine ⟨?_, ?_, ?_⟩
            · unfold VarLocker.isEvicted
              simp
            · unfold VarLocker.isEvicted
              simp
            · unfold _disposeKeysForId _isIdInDeviceKeychain getPublicKeyCheck
              simp [VarLocker.id, hkc', hpub1, hcont1, hmem1]

/-- C8 witness: evicting the concrete live locker for tag "t", then
checking `isEvicted` (no provider call) and evicting again (fails with
the already-disposed error). -/
theorem C8_evict_idempotent_witness :
    (VarLocker.isEvicted ⟨true, ⟨"t", _getInternalId "t"⟩⟩
        (VarLocker.evict ⟨false, ⟨"t", _getInternalId "t"⟩⟩ liveSt).st).res
      = Except.ok (true, ⟨true, ⟨"t", _getInternalId "t"⟩⟩) ∧
    (VarLocker.isEvicted ⟨true, ⟨"t", _getInternalId "t"⟩⟩
        (VarLocker.evict ⟨false, ⟨"t", _getInternalId "t"⟩⟩ liveSt).st).calls = [] ∧
    (VarLocker.evict ⟨true, ⟨"t", _getInternalId "t"⟩⟩
        (VarLocker.evict ⟨false, ⟨"t", _getInternalId "t"⟩⟩ liveSt).st).res
      = Except.error (SMError.alreadyDisposed "t") :=
  C8_evict_idempotent ⟨false, ⟨"t", _getInternalId "t"⟩⟩
    ⟨true, ⟨"t", _getInternalId "t"⟩⟩ liveSt rfl

end VarLockerModel

